import Mathlib

/-!
Shallow embedding of the Rate Limiting & Usage Accounting Engine of the
social-ai backend (src/backend/app/services/rate_limit_service.py,
src/backend/app/services/usage_tracking_service.py,
src/backend/app/services/cache_service.py, src/backend/app/core/redis_client.py).

Redis is modelled as a total function from structured keys to optional entries;
an entry carries the integer counter value and the last TTL set on the key.
The structured keys mirror the f-string key formats of the source
(`rate_limit:{user}:{kind}:{bucket}`, `usage_daily:{user}:{day}`, ...), which
are injective on the underlying field tuples, so a constructor per key family
is a faithful model. Timestamps are UTC at second granularity (the source's
`strftime` bucket formats and TTL arithmetic never look at microseconds except
through truncating `int(...)`).
-/

namespace SocialAI

/-- UTC timestamp at second granularity (`datetime.utcnow()`). -/
structure DateTime where
  year : Nat
  month : Nat
  day : Nat
  hour : Nat
  minute : Nat
  second : Nat
deriving DecidableEq, Repr

/-- Window bucket component of a rate-limit key, as produced by the source's
`now.strftime` formats: minute keys use `%Y%m%d%H%M`, hour keys `%Y%m%d%H`,
day keys `%Y%m%d`, month keys `%Y%m`. -/
inductive WindowBucket where
  | minute (y mo d h mi : Nat)
  | hour (y mo d h : Nat)
  | day (y mo d : Nat)
  | month (y mo : Nat)
deriving DecidableEq, Repr

def minuteBucket (t : DateTime) : WindowBucket :=
  WindowBucket.minute t.year t.month t.day t.hour t.minute

def hourBucket (t : DateTime) : WindowBucket :=
  WindowBucket.hour t.year t.month t.day t.hour

def dayBucket (t : DateTime) : WindowBucket :=
  WindowBucket.day t.year t.month t.day

def monthBucket (t : DateTime) : WindowBucket :=
  WindowBucket.month t.year t.month

/-- The Redis key families touched by the engine:
`rate_limit:{user}:{kind}:{bucket}`, `concurrent:{user}`,
`usage_daily:{user}:{%Y%m%d}`, `usage_monthly:{user}:{%Y%m}`,
`user_subscription:{user}`, `user_usage:{user}`. -/
inductive EKey where
  | rateLimit (userId : Nat) (bucket : WindowBucket)
  | concurrent (userId : Nat)
  | usageDaily (userId : Nat) (y mo d : Nat)
  | usageMonthly (userId : Nat) (y mo : Nat)
  | userSubscription (userId : Nat)
  | userUsage (userId : Nat)
deriving DecidableEq, Repr

/-- A live Redis entry: the counter value plus the TTL (in seconds) most
recently set on the key via EXPIRE, if any. -/
structure Entry where
  value : Nat
  ttl : Option Nat
deriving DecidableEq, Repr

/-- The ephemeral store: Redis contents restricted to the engine's keys. -/
def EStore : Type := EKey → Option Entry

/-- `RedisClient.get key` for a counter key (`decode_responses` yields the
decimal string of the value; the source immediately applies `int`). -/
def eget (s : EStore) (k : EKey) : Option Nat :=
  (s k).map Entry.value

/-- `int(await self.redis.get(key) or "0")` — an absent key reads as 0. -/
def getCount (s : EStore) (k : EKey) : Nat :=
  (eget s k).getD 0

/-- TTL currently recorded on a key, if the key exists and has one. -/
def entryTtl (e : Option Entry) : Option Nat :=
  e.bind Entry.ttl

/-- `RedisClient.incr key` with the backend available: INCR creates an absent
key at 1 (with no TTL) or bumps an existing value, preserving its TTL, and
returns the new value. -/
def incrE (s : EStore) (k : EKey) : EStore × Nat :=
  match s k with
  | none => (fun k2 => if k2 = k then some ⟨1, none⟩ else s k2, 1)
  | some e => (fun k2 => if k2 = k then some ⟨e.value + 1, e.ttl⟩ else s k2, e.value + 1)

/-- `RedisClient.expire key seconds` — sets the TTL on an existing key;
EXPIRE on a missing key is a no-op. -/
def expireE (s : EStore) (k : EKey) (seconds : Nat) : EStore :=
  fun k2 => if k2 = k then (s k).map (fun e => ⟨e.value, some seconds⟩) else s k2

/-- `RedisClient.delete key`. -/
def deleteE (s : EStore) (k : EKey) : EStore :=
  fun k2 => if k2 = k then none else s k2

/-- The store seen through an unreachable backend: `RedisClient.get` returns
`None` for every key (`if not self.redis: return None`, and likewise on any
connection exception). -/
def unavailableStore : EStore := fun _ => none

/-- The empty store: no key exists. -/
def emptyStore : EStore := fun _ => none

/-- Value of a rate-limit window counter as the engine reads it. -/
def rlVal (s : EStore) (userId : Nat) (b : WindowBucket) : Nat :=
  getCount s (EKey.rateLimit userId b)

/-- Plan row fields consumed by the engine (models.Plan). -/
structure Plan where
  requests_per_month : Nat
  concurrent_requests : Nat
deriving DecidableEq, Repr

/-- The four derived window thresholds (`base_limits` dict). -/
structure PlanLimits where
  per_minute : Nat
  per_hour : Nat
  per_day : Nat
  per_month : Nat
deriving DecidableEq, Repr

/-- `RateLimitService._get_plan_limits`: ceilings via `min` on the quota
divided over the window count (Python `//` on non-negative ints is `Nat`
division), then floors via `max`. -/
def get_plan_limits (plan : Plan) : PlanLimits :=
  { per_minute := max (min (plan.requests_per_month / (30 * 24 * 60)) 100) 1
    per_hour := max (min (plan.requests_per_month / (30 * 24)) 6000) 60
    per_day := max (min (plan.requests_per_month / 30) 144000) 1440
    per_month := plan.requests_per_month }

/-- Leap-year rule of the proleptic Gregorian calendar (Python `calendar`). -/
def isLeap (y : Nat) : Bool :=
  (y % 4 = 0 && y % 100 ≠ 0) || y % 400 = 0

def daysInMonth (y mo : Nat) : Nat :=
  if mo = 2 then (if isLeap y then 29 else 28)
  else if mo = 4 ∨ mo = 6 ∨ mo = 9 ∨ mo = 11 then 30
  else 31

/-- `RateLimitService._get_next_month_start`. -/
def get_next_month_start (t : DateTime) : DateTime :=
  if t.month = 12 then
    ⟨t.year + 1, 1, 1, 0, 0, 0⟩
  else
    ⟨t.year, t.month + 1, 1, 0, 0, 0⟩

/-- `int((next_month - now).total_seconds())`: seconds from `t` to the start
of the next month (whole seconds; `total_seconds` of the nonnegative
timedelta truncates to this at second granularity). -/
def secondsUntilNextMonth (t : DateTime) : Nat :=
  (daysInMonth t.year t.month - t.day) * 86400 +
    (86400 - (t.hour * 3600 + t.minute * 60 + t.second))

/-- Roll a calendar date forward by one day. -/
def nextDay (y mo d : Nat) : Nat × Nat × Nat :=
  if d < daysInMonth y mo then (y, mo, d + 1)
  else if mo < 12 then (y, mo + 1, 1)
  else (y + 1, 1, 1)

/-- `(now + timedelta(days=1)).replace(hour=0, minute=0, second=0, ...)`. -/
def dayResetTime (t : DateTime) : DateTime :=
  let r := nextDay t.year t.month t.day
  ⟨r.1, r.2.1, r.2.2, 0, 0, 0⟩

/-- `(now + timedelta(hours=1)).replace(minute=0, second=0, ...)`. -/
def hourResetTime (t : DateTime) : DateTime :=
  if t.hour < 23 then ⟨t.year, t.month, t.day, t.hour + 1, 0, 0⟩
  else dayResetTime t

/-- `(now + timedelta(minutes=1)).replace(second=0, ...)`. -/
def minuteResetTime (t : DateTime) : DateTime :=
  if t.minute < 59 then ⟨t.year, t.month, t.day, t.hour, t.minute + 1, 0⟩
  else hourResetTime t

/-- The wall-clock reset instants reported by the engine. -/
structure ResetTimes where
  minute : DateTime
  hour : DateTime
  day : DateTime
  month : DateTime
deriving DecidableEq, Repr

def resetTimesOf (t : DateTime) : ResetTimes :=
  ⟨minuteResetTime t, hourResetTime t, dayResetTime t, get_next_month_start t⟩

/-- The `rate_limit_info` dict built by `check_rate_limit`. -/
structure RateLimitInfo where
  requests_per_minute : Nat
  requests_per_hour : Nat
  requests_per_day : Nat
  requests_per_month : Nat
  limits : PlanLimits
  reset_times : ResetTimes
deriving DecidableEq, Repr

/-- The `rate_limit_info` dict as constructed (inline, before the threshold
checks) in `RateLimitService.check_rate_limit`. -/
def rateLimitInfoOf (s : EStore) (userId : Nat) (plan : Plan) (now : DateTime) :
    RateLimitInfo :=
  { requests_per_minute := getCount s (EKey.rateLimit userId (minuteBucket now))
    requests_per_hour := getCount s (EKey.rateLimit userId (hourBucket now))
    requests_per_day := getCount s (EKey.rateLimit userId (dayBucket now))
    requests_per_month := getCount s (EKey.rateLimit userId (monthBucket now))
    limits := get_plan_limits plan
    reset_times := resetTimesOf now }

/-- `RateLimitService.check_rate_limit`: reads the four window counters
(absent keys read as 0), derives the plan limits, then tests the windows in
the fixed order minute, hour, day, month, returning `(False, info)` on the
first count at or over its threshold and `(True, info)` otherwise. -/
def check_rate_limit (s : EStore) (userId : Nat) (plan : Plan) (now : DateTime) :
    Bool × RateLimitInfo :=
  let minute_count := getCount s (EKey.rateLimit userId (minuteBucket now))
  let hour_count := getCount s (EKey.rateLimit userId (hourBucket now))
  let day_count := getCount s (EKey.rateLimit userId (dayBucket now))
  let month_count := getCount s (EKey.rateLimit userId (monthBucket now))
  let limits := get_plan_limits plan
  let rate_limit_info := rateLimitInfoOf s userId plan now
  if limits.per_minute ≤ minute_count then (false, rate_limit_info)
  else if limits.per_hour ≤ hour_count then (false, rate_limit_info)
  else if limits.per_day ≤ day_count then (false, rate_limit_info)
  else if limits.per_month ≤ month_count then (false, rate_limit_info)
  else (true, rate_limit_info)

/-- The per-window counts returned by `increment_usage`. -/
structure UsageCounts where
  minute : Nat
  hour : Nat
  day : Nat
  month : Nat
deriving DecidableEq, Repr

/-- `RateLimitService.increment_usage`: INCR all four window keys for the
current timestamp (with the backend available INCR always returns the new
value, so the source's `or 1` fallback is inert), then EXPIRE each key whose
new value is 1 with the window's lifetime — 60 s, 3600 s, 86400 s, and
seconds-until-next-month-start respectively. -/
def increment_usage (s : EStore) (userId : Nat) (now : DateTime) :
    EStore × UsageCounts :=
  let minute_key := EKey.rateLimit userId (minuteBucket now)
  let hour_key := EKey.rateLimit userId (hourBucket now)
  let day_key := EKey.rateLimit userId (dayBucket now)
  let month_key := EKey.rateLimit userId (monthBucket now)
  let r1 := incrE s minute_key
  let r2 := incrE r1.1 hour_key
  let r3 := incrE r2.1 day_key
  let r4 := incrE r3.1 month_key
  let s4 := r4.1
  let s5 := if r1.2 = 1 then expireE s4 minute_key 60 else s4
  let s6 := if r2.2 = 1 then expireE s5 hour_key 3600 else s5
  let s7 := if r3.2 = 1 then expireE s6 day_key 86400 else s6
  let s8 := if r4.2 = 1 then expireE s7 month_key (secondsUntilNextMonth now) else s7
  (s8, ⟨r1.2, r2.2, r3.2, r4.2⟩)

/-- The `current_usage` block of `get_user_rate_limit_status`. -/
structure UsageNumbers where
  per_minute : Nat
  per_hour : Nat
  per_day : Nat
  per_month : Nat
  concurrent : Nat
deriving DecidableEq, Repr

/-- The `limits` block of `get_user_rate_limit_status` (window thresholds
plus the plan's concurrency limit). -/
structure LimitNumbers where
  per_minute : Nat
  per_hour : Nat
  per_day : Nat
  per_month : Nat
  concurrent : Nat
deriving DecidableEq, Repr

/-- The `remaining` block of `get_user_rate_limit_status`. Python ints may be
negative before the `max(0, ...)` clamp, so the fields are integers. -/
structure RemainingNumbers where
  per_minute : Int
  per_hour : Int
  per_day : Int
  per_month : Int
  concurrent : Int
deriving DecidableEq, Repr

/-- Return value of `get_user_rate_limit_status`. The source serialises the
reset instants as Unix epoch seconds via `.timestamp()`; that conversion is
injective and monotone, so the instants are kept as structured timestamps. -/
structure RateLimitStatus where
  current_usage : UsageNumbers
  limits : LimitNumbers
  remaining : RemainingNumbers
  reset_times : ResetTimes
deriving DecidableEq, Repr

/-- `RateLimitService.get_user_rate_limit_status`: reads the four window
counters and the concurrency counter (absent keys read as 0), derives the
plan limits, and reports usage, limits, `remaining = max(0, limit - count)`
per window, and the reset instants. -/
def get_user_rate_limit_status (s : EStore) (userId : Nat) (plan : Plan)
    (now : DateTime) : RateLimitStatus :=
  let minute_count := getCount s (EKey.rateLimit userId (minuteBucket now))
  let hour_count := getCount s (EKey.rateLimit userId (hourBucket now))
  let day_count := getCount s (EKey.rateLimit userId (dayBucket now))
  let month_count := getCount s (EKey.rateLimit userId (monthBucket now))
  let concurrent_count := getCount s (EKey.concurrent userId)
  let limits := get_plan_limits plan
  { current_usage :=
      ⟨minute_count, hour_count, day_count, month_count, concurrent_count⟩
    limits :=
      ⟨limits.per_minute, limits.per_hour, limits.per_day, limits.per_month,
        plan.concurrent_requests⟩
    remaining :=
      ⟨max 0 ((limits.per_minute : Int) - (minute_count : Int)),
        max 0 ((limits.per_hour : Int) - (hour_count : Int)),
        max 0 ((limits.per_day : Int) - (day_count : Int)),
        max 0 ((limits.per_month : Int) - (month_count : Int)),
        max 0 ((plan.concurrent_requests : Int) - (concurrent_count : Int))⟩
    reset_times := resetTimesOf now }

/-!
Administrative reset (`UsageTrackingService.reset_user_usage`) and cache
invalidation (`CacheService.invalidate_user_cache`).

The durable ledger (UsageCounter rows) is modelled per user as the
`requests_count` of the user's counter for the current period, `none` when no
such row exists. The subscription-versus-calendar-month resolution of the
period bounds only fixes the bounds of a newly created row, never the count,
and is abstracted away.
-/

/-- Durable ledger: current-period `requests_count` per user id. -/
def Ledger : Type := Nat → Option Nat

/-- `CacheService.invalidate_user_cache`: deletes `user_subscription:{id}`
and `user_usage:{id}`. The third entry of `keys_to_delete` is the pattern
`rate_limit:{user_id}:*`, and the loop executes `continue` for any key
containing an asterisk ("we'd need to implement pattern deletion"), so no
rate-limit key is deleted here. -/
def invalidate_user_cache (s : EStore) (userId : Nat) : EStore :=
  deleteE (deleteE s (EKey.userSubscription userId)) (EKey.userUsage userId)

/-- `UsageTrackingService.reset_user_usage`: zeroes the user's current-period
UsageCounter row if one exists, then deletes the `usage_daily` and
`usage_monthly` keys for the current day/month. The third entry of
`keys_to_clear` is the pattern `rate_limit:{user_id}:*`, and the loop only
deletes keys that contain no asterisk, so no rate-limit window counter is
deleted. Finally invalidates the user's cache entries. -/
def reset_user_usage (led : Ledger) (s : EStore) (userId : Nat)
    (now : DateTime) : Ledger × EStore :=
  let led2 : Ledger := fun u => if u = userId then (led u).map (fun _ => 0) else led u
  let s2 := deleteE s (EKey.usageDaily userId now.year now.month now.day)
  let s3 := deleteE s2 (EKey.usageMonthly userId now.year now.month)
  let s4 := invalidate_user_cache s3 userId
  (led2, s4)

/-!
Concurrency slot tracker (`RateLimitService.release_concurrent_slot`).
The `concurrent:{user}` counter is stored as a string and parsed with `int`,
so its value is modelled as an integer; slot markers
`concurrent_slot:{user}:{request_id}` are modelled as a boolean presence map.
-/

/-- A `concurrent:{user}` entry: parsed integer value plus recorded TTL. -/
structure ConcEntry where
  value : Int
  ttl : Option Nat
deriving DecidableEq, Repr

/-- State touched by the concurrency slot tracker. -/
structure ConcState where
  counter : Nat → Option ConcEntry
  slot : Nat → String → Bool

/-- `RateLimitService.release_concurrent_slot`: if the slot marker exists,
compute `max(0, int(current) - 1)`, store it back with TTL 300 when positive
or delete the counter when zero, and delete the slot marker; if the marker is
absent, do nothing. -/
def release_concurrent_slot (userId : Nat) (requestId : String) (s : ConcState) :
    ConcState :=
  if s.slot userId requestId then
    let current0 : Int :=
      match s.counter userId with
      | none => 0
      | some e => e.value
    let current : Int := max 0 (current0 - 1)
    { counter :=
        if 0 < current then
          fun u => if u = userId then some ⟨current, some 300⟩ else s.counter u
        else
          fun u => if u = userId then none else s.counter u
      slot := fun u r => if u = userId ∧ r = requestId then false else s.slot u r }
  else s

/-- A sequence of `release_concurrent_slot` calls applied in order. -/
def applyReleases (calls : List (Nat × String)) (s : ConcState) : ConcState :=
  calls.foldl (fun s c => release_concurrent_slot c.1 c.2 s) s

/-- Every stored concurrency counter value is non-negative. -/
def ConcNonneg (s : ConcState) : Prop :=
  ∀ u e, s.counter u = some e → 0 ≤ e.value

/-!
Persistence reconciler (`UsageTrackingService.persist_usage_data` and
`_update_database_usage`).

A queued element of the hour bucket's Redis list is either a string that
fails `json.loads` (`malformed`), or a parsed JSON record whose `user_id` and
`status_code` fields may each be absent; the other event fields (endpoint,
method, response time, timestamp) are never read by the reconciler and are
omitted. The durable side is modelled as the user-existence predicate plus
the per-user current-period ledger count (see `Ledger`); a missing
UsageCounter row is created at 0 before the increment, which the
`Option.getD 0` below captures.
-/

/-- One element of the `api_requests:{hour}` Redis list. -/
inductive QueueElem where
  | malformed
  | record (userId : Option Nat) (statusCode : Option Int)
deriving DecidableEq, Repr

/-- `200 <= r.get("status_code", 0) < 300`. -/
def statusOk : QueueElem → Bool
  | QueueElem.record _ sc => decide (200 ≤ sc.getD 0) && decide (sc.getD 0 < 300)
  | QueueElem.malformed => false

/-- An element the reconciler can group: parsable with a `user_id` field. -/
def isWellFormedEvent : QueueElem → Bool
  | QueueElem.record (some _) _ => true
  | _ => false

/-- Number of 2xx events (`successful_requests` in the source). -/
def count2xx (reqs : List QueueElem) : Nat :=
  (reqs.filter statusOk).length

/-- Events of a given user with a 2xx status code, over any element list. -/
def countUser2xx (userId : Nat) (l : List QueueElem) : Nat :=
  (l.filter fun e =>
    (match e with
     | QueueElem.record (some v) _ => v = userId
     | _ => false : Bool) && statusOk e).length

/-- Database state consumed by `_update_database_usage`: which user ids exist,
and the current-period ledger count per user. -/
structure Db where
  userExists : Nat → Bool
  ledger : Nat → Option Nat

/-- `UsageTrackingService._update_database_usage`: returns unchanged when the
user row is missing; otherwise resolves the billing period (subscription or
calendar-month fallback — period bounds abstracted away), gets or creates the
period's UsageCounter (created with `requests_count=0`), and adds the number
of the user's events with a 2xx status code. -/
def update_database_usage (userId : Nat) (reqs : List QueueElem) (db : Db) : Db :=
  if db.userExists userId then
    { db with
      ledger := fun u =>
        if u = userId then some ((db.ledger userId).getD 0 + count2xx reqs)
        else db.ledger u }
  else db

/-- Append an event to its user's group, preserving the dict's insertion
order (`user_requests[user_id].append(request_data)`). -/
def addToGroup (acc : List (Nat × List QueueElem)) (userId : Nat)
    (e : QueueElem) : List (Nat × List QueueElem) :=
  match acc with
  | [] => [(userId, [e])]
  | (v, l) :: rest =>
      if v = userId then (v, l ++ [e]) :: rest
      else (v, l) :: addToGroup rest userId e

/-- The grouping loop of `persist_usage_data`: for each drained element,
`json.loads` failure (`malformed`) is caught by the `except
json.JSONDecodeError` clause and skipped; a parsed record without a
`user_id` field raises `KeyError` at `request_data["user_id"]`, which no
clause catches, aborting the reconciler; otherwise the record is appended to
its user's group. -/
def groupByUser : List QueueElem → List (Nat × List QueueElem) →
    Except Unit (List (Nat × List QueueElem))
  | [], acc => Except.ok acc
  | QueueElem.malformed :: rest, acc => groupByUser rest acc
  | QueueElem.record none _ :: _, _ => Except.error ()
  | QueueElem.record (some u) sc :: rest, acc =>
      groupByUser rest (addToGroup acc u (QueueElem.record (some u) sc))

/-- `UsageTrackingService.persist_usage_data` for the previous hour's queue.
The RPOP loop drains the Redis list from the right, so with `queue` listed
head-first (LPUSH order) the drained sequence is `queue.reverse` — oldest
first. An empty drain returns early; otherwise the events are grouped by
user (possibly raising, see `groupByUser`) and each user's group is folded
into the database. `Except.error ()` models an uncaught exception. -/
def persist_usage_data (queue : List QueueElem) (db : Db) : Except Unit Db :=
  let requests_json := queue.reverse
  if requests_json.isEmpty then Except.ok db
  else
    match groupByUser requests_json [] with
    | Except.error e => Except.error e
    | Except.ok groups =>
        Except.ok (groups.foldl (fun db ur => update_database_usage ur.1 ur.2 db) db)

/-!
Store-operation lemmas shared by the proofs below.
-/

lemma incrE_fst_self (s : EStore) (k : EKey) :
    (incrE s k).1 k = some ⟨getCount s k + 1, entryTtl (s k)⟩ := by
  unfold incrE getCount eget entryTtl
  cases h : s k <;> simp [h]

lemma incrE_fst_ne (s : EStore) {k k2 : EKey} (h : k2 ≠ k) :
    (incrE s k).1 k2 = s k2 := by
  unfold incrE
  cases hh : s k <;> simp [hh, h]

lemma incrE_snd (s : EStore) (k : EKey) : (incrE s k).2 = getCount s k + 1 := by
  unfold incrE getCount eget
  cases h : s k <;> simp [h]

lemma getCount_incrE_self (s : EStore) (k : EKey) :
    getCount (incrE s k).1 k = getCount s k + 1 := by
  rw [getCount, eget, incrE_fst_self]
  rfl

lemma getCount_incrE_ne (s : EStore) {k k2 : EKey} (h : k2 ≠ k) :
    getCount (incrE s k).1 k2 = getCount s k2 := by
  rw [getCount, eget, incrE_fst_ne s h]
  rfl

lemma expireE_self (s : EStore) (k : EKey) (n : Nat) :
    expireE s k n k = (s k).map (fun e => ⟨e.value, some n⟩) := by
  simp [expireE]

lemma expireE_ne (s : EStore) {k k2 : EKey} (n : Nat) (h : k2 ≠ k) :
    expireE s k n k2 = s k2 := by
  simp [expireE, h]

lemma getCount_expireE (s : EStore) (k k2 : EKey) (n : Nat) :
    getCount (expireE s k n) k2 = getCount s k2 := by
  unfold getCount eget expireE
  by_cases h : k2 = k
  · subst h
    cases hh : s k2 <;> simp [hh]
  · simp [h]

/-- The admit component of `check_rate_limit`, characterised: the request is
admitted exactly when every window count is strictly below its threshold. -/
lemma check_rate_limit_fst_iff (s : EStore) (userId : Nat) (plan : Plan)
    (now : DateTime) :
    (check_rate_limit s userId plan now).1 = true ↔
      (rlVal s userId (minuteBucket now) < (get_plan_limits plan).per_minute ∧
       rlVal s userId (hourBucket now) < (get_plan_limits plan).per_hour ∧
       rlVal s userId (dayBucket now) < (get_plan_limits plan).per_day ∧
       rlVal s userId (monthBucket now) < (get_plan_limits plan).per_month) := by
  unfold check_rate_limit rlVal
  dsimp only
  split_ifs with h1 h2 h3 h4 <;> simp <;> omega

/-- The status component of `check_rate_limit` is the same in every branch. -/
lemma check_rate_limit_snd_eq (s : EStore) (userId : Nat) (plan : Plan)
    (now : DateTime) :
    (check_rate_limit s userId plan now).2 = rateLimitInfoOf s userId plan now := by
  unfold check_rate_limit
  dsimp only
  split_ifs <;> rfl

/-- Claim C1 fails as stated: for the plan with `monthly_quota = 100` (a
positive quota), the derived limits break the chain, since
`per_day = 1440 > 100 = per_month`. -/
theorem claim1_ordering_counterexample :
    0 < (100 : Nat) ∧
    ¬ ((get_plan_limits ⟨100, 1⟩).per_minute ≤ (get_plan_limits ⟨100, 1⟩).per_hour ∧
       (get_plan_limits ⟨100, 1⟩).per_hour ≤ (get_plan_limits ⟨100, 1⟩).per_day ∧
       (get_plan_limits ⟨100, 1⟩).per_day ≤ (get_plan_limits ⟨100, 1⟩).per_month) := by
  decide

/-- Claim C1 (amended): for every plan, the derived thresholds satisfy
`per_minute ≤ per_hour ≤ per_day`, and the final link `per_day ≤ per_month`
holds whenever the monthly quota is at least 1440 (the per-day floor); below
that the clamp floors push `per_day` above the monthly quota. -/
theorem claim1_ordering_amended (plan : Plan) :
    ((get_plan_limits plan).per_minute ≤ (get_plan_limits plan).per_hour ∧
     (get_plan_limits plan).per_hour ≤ (get_plan_limits plan).per_day) ∧
    (1440 ≤ plan.requests_per_month →
      (get_plan_limits plan).per_day ≤ (get_plan_limits plan).per_month) := by
  unfold get_plan_limits
  refine ⟨⟨?_, ?_⟩, ?_⟩
  · exact max_le_max
      (min_le_min (Nat.div_le_div_left (by norm_num) (by norm_num)) (by norm_num))
      (by norm_num)
  · exact max_le_max
      (min_le_min (Nat.div_le_div_left (by norm_num) (by norm_num)) (by norm_num))
      (by norm_num)
  · intro h
    exact max_le (le_trans (min_le_left _ _) (Nat.div_le_self _ _)) h

/-- Instance of the amended C1 at the concrete plan with monthly quota 2000. -/
theorem claim1_ordering_amended_witness :
    1440 ≤ (2000 : Nat) ∧
    (((get_plan_limits ⟨2000, 5⟩).per_minute ≤ (get_plan_limits ⟨2000, 5⟩).per_hour ∧
      (get_plan_limits ⟨2000, 5⟩).per_hour ≤ (get_plan_limits ⟨2000, 5⟩).per_day) ∧
     (get_plan_limits ⟨2000, 5⟩).per_day ≤ (get_plan_limits ⟨2000, 5⟩).per_month) :=
  ⟨by norm_num,
   ⟨(claim1_ordering_amended ⟨2000, 5⟩).1,
    (claim1_ordering_amended ⟨2000, 5⟩).2 (by norm_num)⟩⟩

/-- Claim C3: `check_rate_limit` admits exactly when all four window counts
are strictly below their thresholds, and the returned status is the same
dict in every branch, so the fixed minute-hour-day-month evaluation order
can change only which check fires the denial, never the admit/deny outcome
or the reported status. -/
theorem claim3_admit_iff_all_below (s : EStore) (userId : Nat) (plan : Plan)
    (now : DateTime) :
    ((check_rate_limit s userId plan now).1 = true ↔
      (rlVal s userId (minuteBucket now) < (get_plan_limits plan).per_minute ∧
       rlVal s userId (hourBucket now) < (get_plan_limits plan).per_hour ∧
       rlVal s userId (dayBucket now) < (get_plan_limits plan).per_day ∧
       rlVal s userId (monthBucket now) < (get_plan_limits plan).per_month)) ∧
    (check_rate_limit s userId plan now).2 = rateLimitInfoOf s userId plan now :=
  ⟨check_rate_limit_fst_iff s userId plan now, check_rate_limit_snd_eq s userId plan now⟩

/-- Claim C4: when the ephemeral store is unreachable every read returns the
`None` sentinel, all counts parse as 0, and `check_rate_limit` fails open —
it admits for every user, plan (with the spec's positive monthly quota) and
timestamp. -/
theorem claim4_fail_open (userId : Nat) (plan : Plan) (now : DateTime)
    (hq : 0 < plan.requests_per_month) :
    (check_rate_limit unavailableStore userId plan now).1 = true := by
  rw [check_rate_limit_fst_iff]
  have hz : ∀ b : WindowBucket, rlVal unavailableStore userId b = 0 := fun _ => rfl
  rw [hz, hz, hz, hz]
  refine ⟨?_, ?_, ?_, ?_⟩
  · exact lt_of_lt_of_le zero_lt_one (le_max_right _ _)
  · exact lt_of_lt_of_le (by norm_num) (le_max_right _ _)
  · exact lt_of_lt_of_le (by norm_num) (le_max_right _ _)
  · exact hq

/-- Instance of C4 at a concrete user, plan and timestamp. -/
theorem claim4_fail_open_witness :
    0 < (100 : Nat) ∧
    (check_rate_limit unavailableStore 1 ⟨100, 5⟩ ⟨2024, 1, 15, 12, 0, 0⟩).1 = true :=
  ⟨by norm_num, claim4_fail_open 1 ⟨100, 5⟩ ⟨2024, 1, 15, 12, 0, 0⟩ (by norm_num)⟩

/-- Claim C10: every `remaining` field reported by
`get_user_rate_limit_status` is non-negative for every store state, user,
plan and timestamp — including states where a count already exceeds its
limit — because each is computed as `max(0, limit - count)`. -/
theorem claim10_remaining_nonneg (s : EStore) (userId : Nat) (plan : Plan)
    (now : DateTime) :
    (0 ≤ (get_user_rate_limit_status s userId plan now).remaining.per_minute ∧
     0 ≤ (get_user_rate_limit_status s userId plan now).remaining.per_hour ∧
     0 ≤ (get_user_rate_limit_status s userId plan now).remaining.per_day ∧
     0 ≤ (get_user_rate_limit_status s userId plan now).remaining.per_month ∧
     0 ≤ (get_user_rate_limit_status s userId plan now).remaining.concurrent) ∧
    ((get_user_rate_limit_status s userId plan now).remaining.per_minute =
      max 0 (((get_user_rate_limit_status s userId plan now).limits.per_minute : Int) -
        ((get_user_rate_limit_status s userId plan now).current_usage.per_minute : Int)) ∧
     (get_user_rate_limit_status s userId plan now).remaining.per_month =
      max 0 (((get_user_rate_limit_status s userId plan now).limits.per_month : Int) -
        ((get_user_rate_limit_status s userId plan now).current_usage.per_month : Int)) ∧
     (get_user_rate_limit_status s userId plan now).remaining.concurrent =
      max 0 (((get_user_rate_limit_status s userId plan now).limits.concurrent : Int) -
        ((get_user_rate_limit_status s userId plan now).current_usage.concurrent : Int))) :=
  ⟨⟨le_max_left _ _, le_max_left _ _, le_max_left _ _, le_max_left _ _,
    le_max_left _ _⟩, rfl, rfl, rfl⟩

/-- `getCount` only looks at the key's own cell. -/
lemma getCount_congr {s1 s2 : EStore} {k : EKey} (h : s1 k = s2 k) :
    getCount s1 k = getCount s2 k := by
  unfold getCount eget
  rw [h]

/-- Full characterisation of `increment_usage`: the returned counts are the
old counts plus one, and each window key ends at the incremented value with
its expiry set to the window lifetime exactly when the new value is 1 (and
its previous TTL kept otherwise). -/
lemma increment_usage_spec (s : EStore) (userId : Nat) (t : DateTime) :
    (increment_usage s userId t).2 =
      ⟨getCount s (EKey.rateLimit userId (minuteBucket t)) + 1,
       getCount s (EKey.rateLimit userId (hourBucket t)) + 1,
       getCount s (EKey.rateLimit userId (dayBucket t)) + 1,
       getCount s (EKey.rateLimit userId (monthBucket t)) + 1⟩ ∧
    (increment_usage s userId t).1 (EKey.rateLimit userId (minuteBucket t)) =
      some ⟨getCount s (EKey.rateLimit userId (minuteBucket t)) + 1,
        if getCount s (EKey.rateLimit userId (minuteBucket t)) + 1 = 1 then some 60
        else entryTtl (s (EKey.rateLimit userId (minuteBucket t)))⟩ ∧
    (increment_usage s userId t).1 (EKey.rateLimit userId (hourBucket t)) =
      some ⟨getCount s (EKey.rateLimit userId (hourBucket t)) + 1,
        if getCount s (EKey.rateLimit userId (hourBucket t)) + 1 = 1 then some 3600
        else entryTtl (s (EKey.rateLimit userId (hourBucket t)))⟩ ∧
    (increment_usage s userId t).1 (EKey.rateLimit userId (dayBucket t)) =
      some ⟨getCount s (EKey.rateLimit userId (dayBucket t)) + 1,
        if getCount s (EKey.rateLimit userId (dayBucket t)) + 1 = 1 then some 86400
        else entryTtl (s (EKey.rateLimit userId (dayBucket t)))⟩ ∧
    (increment_usage s userId t).1 (EKey.rateLimit userId (monthBucket t)) =
      some ⟨getCount s (EKey.rateLimit userId (monthBucket t)) + 1,
        if getCount s (EKey.rateLimit userId (monthBucket t)) + 1 = 1 then
          some (secondsUntilNextMonth t)
        else entryTtl (s (EKey.rateLimit userId (monthBucket t)))⟩ := by
  unfold increment_usage
  dsimp only
  set kM := EKey.rateLimit userId (minuteBucket t) with hkM
  set kH := EKey.rateLimit userId (hourBucket t) with hkH
  set kD := EKey.rateLimit userId (dayBucket t) with hkD
  set kMo := EKey.rateLimit userId (monthBucket t) with hkMo
  have nHM : kH ≠ kM := by
    simp [hkH, hkM, hourBucket, minuteBucket]
  have nDM : kD ≠ kM := by
    simp [hkD, hkM, dayBucket, minuteBucket]
  have nDH : kD ≠ kH := by
    simp [hkD, hkH, dayBucket, hourBucket]
  have nMoM : kMo ≠ kM := by
    simp [hkMo, hkM, monthBucket, minuteBucket]
  have nMoH : kMo ≠ kH := by
    simp [hkMo, hkH, monthBucket, hourBucket]
  have nMoD : kMo ≠ kD := by
    simp [hkMo, hkD, monthBucket, dayBucket]
  set p1 := incrE s kM with hp1
  set p2 := incrE p1.1 kH with hp2
  set p3 := incrE p2.1 kD with hp3
  set p4 := incrE p3.1 kMo with hp4
  have e1m : p1.1 kM = some ⟨getCount s kM + 1, entryTtl (s kM)⟩ := by
    rw [hp1, incrE_fst_self]
  have e1h : p1.1 kH = s kH := by rw [hp1, incrE_fst_ne s nHM]
  have e1d : p1.1 kD = s kD := by rw [hp1, incrE_fst_ne s nDM]
  have e1mo : p1.1 kMo = s kMo := by rw [hp1, incrE_fst_ne s nMoM]
  have e2m : p2.1 kM = p1.1 kM := by rw [hp2, incrE_fst_ne _ nHM.symm]
  have e2h : p2.1 kH = some ⟨getCount s kH + 1, entryTtl (s kH)⟩ := by
    rw [hp2, incrE_fst_self, getCount_congr e1h, e1h]
  have e2d : p2.1 kD = s kD := by rw [hp2, incrE_fst_ne _ nDH, e1d]
  have e2mo : p2.1 kMo = s kMo := by rw [hp2, incrE_fst_ne _ nMoH, e1mo]
  have e3m : p3.1 kM = p1.1 kM := by rw [hp3, incrE_fst_ne _ nDM.symm, e2m]
  have e3h : p3.1 kH = p2.1 kH := by rw [hp3, incrE_fst_ne _ nDH.symm]
  have e3d : p3.1 kD = some ⟨getCount s kD + 1, entryTtl (s kD)⟩ := by
    rw [hp3, incrE_fst_self, getCount_congr e2d, e2d]
  have e3mo : p3.1 kMo = s kMo := by rw [hp3, incrE_fst_ne _ nMoD, e2mo]
  have e4m : p4.1 kM = p1.1 kM := by rw [hp4, incrE_fst_ne _ nMoM.symm, e3m]
  have e4h : p4.1 kH = p2.1 kH := by rw [hp4, incrE_fst_ne _ nMoH.symm, e3h]
  have e4d : p4.1 kD = p3.1 kD := by rw [hp4, incrE_fst_ne _ nMoD.symm]
  have e4mo : p4.1 kMo = some ⟨getCount s kMo + 1, entryTtl (s kMo)⟩ := by
    rw [hp4, incrE_fst_self, getCount_congr e3mo, e3mo]
  have c1 : p1.2 = getCount s kM + 1 := by rw [hp1, incrE_snd]
  have c2 : p2.2 = getCount s kH + 1 := by
    rw [hp2, incrE_snd, getCount_congr e1h]
  have c3 : p3.2 = getCount s kD + 1 := by
    rw [hp3, incrE_snd, getCount_congr e2d]
  have c4 : p4.2 = getCount s kMo + 1 := by
    rw [hp4, incrE_snd, getCount_congr e3mo]
  rw [c1, c2, c3, c4]
  refine ⟨rfl, ?_, ?_, ?_, ?_⟩ <;>
    by_cases hm : getCount s kM + 1 = 1 <;>
    by_cases hh : getCount s kH + 1 = 1 <;>
    by_cases hd : getCount s kD + 1 = 1 <;>
    by_cases hmo : getCount s kMo + 1 = 1 <;>
    simp [hm, hh, hd, hmo, expireE_ne, expireE_self, nHM, nDM, nDH, nMoM, nMoH,
      nMoD, nHM.symm, nDM.symm, nDH.symm, nMoM.symm, nMoH.symm, nMoD.symm,
      e1m, e2h, e3d, e4m, e4h, e4d, e4mo, entryTtl]

/-- `reset_user_usage` never touches a rate-limit window counter: the only
candidate in `keys_to_clear` is the wildcard pattern, which the delete loop
skips, and `invalidate_user_cache` likewise skips its wildcard entry. -/
lemma reset_preserves_rateLimit (led : Ledger) (s : EStore) (userId : Nat)
    (now : DateTime) (u2 : Nat) (b : WindowBucket) :
    (reset_user_usage led s userId now).2 (EKey.rateLimit u2 b) =
      s (EKey.rateLimit u2 b) := by
  unfold reset_user_usage invalidate_user_cache deleteE
  simp

/-- Claim C8: `increment_usage` bumps all four window counters by one, and a
key's expiry is set exactly when its increment returns 1 — to 60 s for the
minute window, 3600 s for the hour window, 86400 s for the day window, and
seconds-until-the-start-of-the-next-month for the month window — while a
later increment keeps the previously recorded TTL. No other engine path
resets a window counter: in particular the administrative reset leaves every
`rate_limit` key untouched (its wildcard entry is skipped by the delete
loop), so TTL expiry is the sole reset mechanism. -/
theorem claim8_increment_sets_expiry (s : EStore) (userId : Nat) (t : DateTime) :
    ((increment_usage s userId t).2 =
      ⟨getCount s (EKey.rateLimit userId (minuteBucket t)) + 1,
       getCount s (EKey.rateLimit userId (hourBucket t)) + 1,
       getCount s (EKey.rateLimit userId (dayBucket t)) + 1,
       getCount s (EKey.rateLimit userId (monthBucket t)) + 1⟩ ∧
     (increment_usage s userId t).1 (EKey.rateLimit userId (minuteBucket t)) =
       some ⟨getCount s (EKey.rateLimit userId (minuteBucket t)) + 1,
         if getCount s (EKey.rateLimit userId (minuteBucket t)) + 1 = 1 then some 60
         else entryTtl (s (EKey.rateLimit userId (minuteBucket t)))⟩ ∧
     (increment_usage s userId t).1 (EKey.rateLimit userId (hourBucket t)) =
       some ⟨getCount s (EKey.rateLimit userId (hourBucket t)) + 1,
         if getCount s (EKey.rateLimit userId (hourBucket t)) + 1 = 1 then some 3600
         else entryTtl (s (EKey.rateLimit userId (hourBucket t)))⟩ ∧
     (increment_usage s userId t).1 (EKey.rateLimit userId (dayBucket t)) =
       some ⟨getCount s (EKey.rateLimit userId (dayBucket t)) + 1,
         if getCount s (EKey.rateLimit userId (dayBucket t)) + 1 = 1 then some 86400
         else entryTtl (s (EKey.rateLimit userId (dayBucket t)))⟩ ∧
     (increment_usage s userId t).1 (EKey.rateLimit userId (monthBucket t)) =
       some ⟨getCount s (EKey.rateLimit userId (monthBucket t)) + 1,
         if getCount s (EKey.rateLimit userId (monthBucket t)) + 1 = 1 then
           some (secondsUntilNextMonth t)
         else entryTtl (s (EKey.rateLimit userId (monthBucket t)))⟩) ∧
    (∀ (led : Ledger) (adminTarget : Nat) (now2 : DateTime) (u2 : Nat)
       (b : WindowBucket),
      (reset_user_usage led s adminTarget now2).2 (EKey.rateLimit u2 b) =
        s (EKey.rateLimit u2 b)) :=
  ⟨increment_usage_spec s userId t,
   fun led adminTarget now2 u2 b =>
     reset_preserves_rateLimit led s adminTarget now2 u2 b⟩

/-- Claim C2 is wrong about the code: `reset_user_usage` zeroes the user's
current-period ledger count and deletes the `usage_daily` key, but the
`rate_limit:{user}:*` entry of `keys_to_clear` is a wildcard pattern the
delete loop skips (as does `invalidate_user_cache`), so the user's window
counters survive the reset — shown here on a state holding a minute counter
of 7, which is still 7 (TTL included) after the reset. -/
theorem claim2_reset_leaves_window_counters :
    (reset_user_usage (fun u => if u = 1 then some 42 else none)
      (fun k =>
        if k = EKey.rateLimit 1 (WindowBucket.minute 2024 1 15 12 0) then
          some ⟨7, some 60⟩
        else if k = EKey.usageDaily 1 2024 1 15 then some ⟨3, none⟩ else none)
      1 ⟨2024, 1, 15, 12, 0, 30⟩).1 1 = some 0 ∧
    (reset_user_usage (fun u => if u = 1 then some 42 else none)
      (fun k =>
        if k = EKey.rateLimit 1 (WindowBucket.minute 2024 1 15 12 0) then
          some ⟨7, some 60⟩
        else if k = EKey.usageDaily 1 2024 1 15 then some ⟨3, none⟩ else none)
      1 ⟨2024, 1, 15, 12, 0, 30⟩).2 (EKey.usageDaily 1 2024 1 15) = none ∧
    (reset_user_usage (fun u => if u = 1 then some 42 else none)
      (fun k =>
        if k = EKey.rateLimit 1 (WindowBucket.minute 2024 1 15 12 0) then
          some ⟨7, some 60⟩
        else if k = EKey.usageDaily 1 2024 1 15 then some ⟨3, none⟩ else none)
      1 ⟨2024, 1, 15, 12, 0, 30⟩).2
        (EKey.rateLimit 1 (WindowBucket.minute 2024 1 15 12 0)) = some ⟨7, some 60⟩ := by
  refine ⟨?_, ?_, ?_⟩ <;> rfl

/-- `release_concurrent_slot` is a no-op when the slot marker is absent. -/
lemma release_noop {s : ConcState} {u : Nat} {r : String}
    (h : s.slot u r = false) : release_concurrent_slot u r s = s := by
  unfold release_concurrent_slot
  rw [h]
  simp

/-- After a release with the marker present, the marker is gone. -/
lemma release_slot_false {s : ConcState} {u : Nat} {r : String}
    (h : s.slot u r = true) :
    (release_concurrent_slot u r s).slot u r = false := by
  unfold release_concurrent_slot
  rw [h]
  simp

/-- One release keeps every stored concurrency counter non-negative. -/
lemma release_preserves_nonneg (u : Nat) (r : String) {s : ConcState}
    (h : ConcNonneg s) : ConcNonneg (release_concurrent_slot u r s) := by
  unfold release_concurrent_slot
  by_cases hs : s.slot u r
  · rw [hs]
    simp only [if_true]
    intro u2 e he
    dsimp only at he
    split at he
    · dsimp only at he
      by_cases hu : u2 = u
      · rw [if_pos hu] at he
        cases he
        exact le_max_left 0 _
      · rw [if_neg hu] at he
        exact h u2 e he
    · dsimp only at he
      by_cases hu : u2 = u
      · rw [if_pos hu] at he
        exact absurd he (by simp)
      · rw [if_neg hu] at he
        exact h u2 e he
  · rw [Bool.not_eq_true] at hs
    rw [hs]
    simpa using h

/-- Any sequence of releases keeps the counters non-negative. -/
lemma applyReleases_nonneg (calls : List (Nat × String)) (s : ConcState)
    (h : ConcNonneg s) : ConcNonneg (applyReleases calls s) := by
  induction calls generalizing s with
  | nil => exact h
  | cons c rest ih =>
      exact ih _ (release_preserves_nonneg c.1 c.2 h)

/-- Claim C6: releasing a concurrency slot is idempotent — the second release
with the same `(user_id, request_id)` finds the slot marker gone and is a
no-op — and no sequence of release calls can drive a stored ConcurrencyCounter
value below zero (the decrement is floored at `max(0, ...)` and a zero counter
is deleted rather than stored). -/
theorem claim6_release_idempotent_nonneg :
    (∀ (s : ConcState) (userId : Nat) (requestId : String),
      release_concurrent_slot userId requestId
          (release_concurrent_slot userId requestId s) =
        release_concurrent_slot userId requestId s) ∧
    (∀ (calls : List (Nat × String)) (s : ConcState),
      ConcNonneg s → ConcNonneg (applyReleases calls s)) := by
  constructor
  · intro s userId requestId
    by_cases h : s.slot userId requestId
    · exact release_noop (release_slot_false h)
    · rw [Bool.not_eq_true] at h
      rw [release_noop h, release_noop h]
  · exact applyReleases_nonneg

/-- Instance of C6 on a concrete state with counter 2 and a live marker. -/
theorem claim6_release_idempotent_nonneg_witness :
    (release_concurrent_slot 1 "r1"
        (release_concurrent_slot 1 "r1"
          ⟨fun _ => some ⟨2, some 300⟩, fun _ _ => true⟩) =
      release_concurrent_slot 1 "r1"
        ⟨fun _ => some ⟨2, some 300⟩, fun _ _ => true⟩) ∧
    ConcNonneg (applyReleases [(1, "r1"), (1, "r1")]
      ⟨fun _ => some ⟨2, some 300⟩, fun _ _ => true⟩) :=
  ⟨claim6_release_idempotent_nonneg.1 ⟨fun _ => some ⟨2, some 300⟩, fun _ _ => true⟩ 1 "r1",
   claim6_release_idempotent_nonneg.2 [(1, "r1"), (1, "r1")]
     ⟨fun _ => some ⟨2, some 300⟩, fun _ _ => true⟩
     (by intro u e he; cases he; decide)⟩

/-- `getCount` is unchanged by a possibly-skipped EXPIRE. -/
lemma getCount_ite_expire (c : Prop) [Decidable c] (s : EStore) (k2 k : EKey)
    (n : Nat) : getCount (if c then expireE s k2 n else s) k = getCount s k := by
  split
  · exact getCount_expireE s k2 k n
  · rfl

/-- `getCount` after a single INCR, with the key comparison explicit. -/
lemma getCount_incrE (s : EStore) (k k2 : EKey) :
    getCount (incrE s k).1 k2 = getCount s k2 + (if k2 = k then 1 else 0) := by
  by_cases h : k2 = k
  · subst h
    simp [getCount_incrE_self]
  · simp [getCount_incrE_ne s h, h]

/-- Effect of one `increment_usage` call on a month window counter of the
same user: it grows by one exactly when the call's timestamp lies in that
month bucket. -/
lemma rlVal_increment_month (s : EStore) (u : Nat) (t : DateTime) (y mo : Nat) :
    rlVal (increment_usage s u t).1 u (WindowBucket.month y mo) =
      rlVal s u (WindowBucket.month y mo) +
        (if monthBucket t = WindowBucket.month y mo then 1 else 0) := by
  unfold increment_usage rlVal
  dsimp only
  rw [getCount_ite_expire, getCount_ite_expire, getCount_ite_expire,
    getCount_ite_expire, getCount_incrE, getCount_incrE, getCount_incrE,
    getCount_incrE]
  have hm : EKey.rateLimit u (WindowBucket.month y mo) ≠
      EKey.rateLimit u (minuteBucket t) := by
    simp [minuteBucket]
  have hh : EKey.rateLimit u (WindowBucket.month y mo) ≠
      EKey.rateLimit u (hourBucket t) := by
    simp [hourBucket]
  have hd : EKey.rateLimit u (WindowBucket.month y mo) ≠
      EKey.rateLimit u (dayBucket t) := by
    simp [dayBucket]
  rw [if_neg hm, if_neg hh, if_neg hd]
  by_cases hmo : monthBucket t = WindowBucket.month y mo
  · have hcond : EKey.rateLimit u (WindowBucket.month y mo) =
        EKey.rateLimit u (monthBucket t) := by rw [hmo]
    rw [if_pos hcond, if_pos hmo]
  · have hcond : EKey.rateLimit u (WindowBucket.month y mo) ≠
        EKey.rateLimit u (monthBucket t) := by
      intro hx
      injection hx with h1 h2
      exact hmo h2.symm
    rw [if_neg hcond, if_neg hmo]

/-- Month window counter after a sequence of `increment_usage` calls. -/
lemma rlVal_fold_month (ts : List DateTime) (s : EStore) (u : Nat) (y mo : Nat) :
    rlVal (ts.foldl (fun s2 t2 => (increment_usage s2 u t2).1) s) u
        (WindowBucket.month y mo) =
      rlVal s u (WindowBucket.month y mo) +
        ts.countP (fun t2 => decide (monthBucket t2 = WindowBucket.month y mo)) := by
  induction ts generalizing s with
  | nil => simp
  | cons t2 rest ih =>
      rw [List.foldl_cons, ih, rlVal_increment_month, List.countP_cons]
      by_cases hx : monthBucket t2 = WindowBucket.month y mo <;> simp [hx] <;> omega

/-- Claim C5: a plan with monthly quota 100 derives exactly the limits
`{per_minute 1, per_hour 60, per_day 1440, per_month 100}`; and starting
from an empty store, after 100 `increment_usage` calls for one user whose
timestamps all lie in the check's month window, the next `check_rate_limit`
denies and reports a month count of exactly 100. -/
theorem claim5_monthly_quota_scenario (c : Nat) (ts : List DateTime) (u : Nat)
    (t : DateTime) (hlen : ts.length = 100)
    (hsame : ∀ t2 ∈ ts, t2.year = t.year ∧ t2.month = t.month) :
    get_plan_limits ⟨100, c⟩ = ⟨1, 60, 1440, 100⟩ ∧
    (check_rate_limit
      (ts.foldl (fun s2 t2 => (increment_usage s2 u t2).1) emptyStore)
      u ⟨100, c⟩ t).1 = false ∧
    (check_rate_limit
      (ts.foldl (fun s2 t2 => (increment_usage s2 u t2).1) emptyStore)
      u ⟨100, c⟩ t).2.requests_per_month = 100 := by
  have hmonth :
      rlVal (ts.foldl (fun s2 t2 => (increment_usage s2 u t2).1) emptyStore) u
        (WindowBucket.month t.year t.month) = 100 := by
    rw [rlVal_fold_month]
    have hz : rlVal emptyStore u (WindowBucket.month t.year t.month) = 0 := rfl
    rw [hz]
    have hcnt : ts.countP
        (fun t2 => decide (monthBucket t2 = WindowBucket.month t.year t.month)) =
        ts.length := by
      rw [List.countP_eq_length]
      intro t2 ht2
      have := hsame t2 ht2
      simp [monthBucket, this.1, this.2]
    rw [hcnt, hlen]
  refine ⟨by norm_num [get_plan_limits], ?_, ?_⟩
  · cases hb : (check_rate_limit
        (ts.foldl (fun s2 t2 => (increment_usage s2 u t2).1) emptyStore)
        u ⟨100, c⟩ t).1 with
    | false => rfl
    | true =>
        have hiff := (check_rate_limit_fst_iff
          (ts.foldl (fun s2 t2 => (increment_usage s2 u t2).1) emptyStore)
          u ⟨100, c⟩ t).1 hb
        have hlt := hiff.2.2.2
        have : rlVal (ts.foldl (fun s2 t2 => (increment_usage s2 u t2).1) emptyStore)
            u (monthBucket t) = 100 := hmonth
        rw [this] at hlt
        exact absurd hlt (by norm_num [get_plan_limits])
  · rw [check_rate_limit_snd_eq]
    exact hmonth

/-- Instance of C5: 100 increments at one timestamp inside January 2024. -/
theorem claim5_monthly_quota_scenario_witness :
    ((List.replicate 100 (⟨2024, 1, 15, 12, 0, 0⟩ : DateTime)).length = 100 ∧
     (∀ t2 ∈ List.replicate 100 (⟨2024, 1, 15, 12, 0, 0⟩ : DateTime),
       t2.year = (⟨2024, 1, 15, 12, 30, 0⟩ : DateTime).year ∧
       t2.month = (⟨2024, 1, 15, 12, 30, 0⟩ : DateTime).month)) ∧
    (get_plan_limits ⟨100, 1⟩ = ⟨1, 60, 1440, 100⟩ ∧
     (check_rate_limit
       ((List.replicate 100 (⟨2024, 1, 15, 12, 0, 0⟩ : DateTime)).foldl
         (fun s2 t2 => (increment_usage s2 7 t2).1) emptyStore)
       7 ⟨100, 1⟩ ⟨2024, 1, 15, 12, 30, 0⟩).1 = false ∧
     (check_rate_limit
       ((List.replicate 100 (⟨2024, 1, 15, 12, 0, 0⟩ : DateTime)).foldl
         (fun s2 t2 => (increment_usage s2 7 t2).1) emptyStore)
       7 ⟨100, 1⟩ ⟨2024, 1, 15, 12, 30, 0⟩).2.requests_per_month = 100) :=
  ⟨⟨by simp, by
      intro t2 ht2
      have := List.eq_of_mem_replicate ht2
      subst this
      exact ⟨rfl, rfl⟩⟩,
   claim5_monthly_quota_scenario 1
     (List.replicate 100 (⟨2024, 1, 15, 12, 0, 0⟩ : DateTime)) 7
     ⟨2024, 1, 15, 12, 30, 0⟩ (by simp)
     (by
       intro t2 ht2
       have := List.eq_of_mem_replicate ht2
       subst this
       exact ⟨rfl, rfl⟩)⟩

/-- Total 2xx contribution of a user across a grouping accumulator. -/
def groupCount (userId : Nat) (gs : List (Nat × List QueueElem)) : Nat :=
  (gs.map (fun g => if g.1 = userId then count2xx g.2 else 0)).sum

lemma count2xx_append_singleton (l : List QueueElem) (e : QueueElem) :
    count2xx (l ++ [e]) = count2xx l + (if statusOk e then 1 else 0) := by
  unfold count2xx
  rw [List.filter_append, List.length_append]
  cases he : statusOk e <;> simp [List.filter_cons, he]

lemma addToGroup_count (acc : List (Nat × List QueueElem)) (userId v : Nat)
    (e : QueueElem) :
    groupCount userId (addToGroup acc v e) =
      groupCount userId acc +
        (if v = userId then (if statusOk e then 1 else 0) else 0) := by
  induction acc with
  | nil =>
      by_cases hv : v = userId <;>
        simp [addToGroup, groupCount, count2xx, hv, List.filter_cons] <;>
        cases he : statusOk e <;> simp [he]
  | cons g rest ih =>
      unfold addToGroup
      by_cases hg : g.1 = v
      · rw [if_pos hg]
        unfold groupCount at *
        simp only [List.map_cons, List.sum_cons]
        rw [count2xx_append_singleton]
        by_cases hgu : g.1 = userId
        · rw [if_pos hgu, if_pos hgu, if_pos (hg ▸ hgu : v = userId)]
          omega
        · rw [if_neg hgu, if_neg hgu,
            if_neg (fun hvu => hgu (hg.trans hvu) : ¬v = userId)]
          omega
      · rw [if_neg hg]
        unfold groupCount at *
        simp only [List.map_cons, List.sum_cons]
        rw [ih]
        omega

lemma update_userExists (v : Nat) (reqs : List QueueElem) (db : Db) :
    (update_database_usage v reqs db).userExists = db.userExists := by
  unfold update_database_usage
  split <;> rfl

lemma update_ledger_val (v : Nat) (reqs : List QueueElem) (db : Db) (u : Nat)
    (hu : db.userExists u = true) :
    ((update_database_usage v reqs db).ledger u).getD 0 =
      (db.ledger u).getD 0 + (if v = u then count2xx reqs else 0) := by
  unfold update_database_usage
  by_cases hvu : v = u
  · subst hvu
    rw [if_pos rfl]
    rw [hu]
    simp
  · rw [if_neg hvu]
    by_cases hv : db.userExists v
    · rw [if_pos hv]
      dsimp only
      rw [if_neg (fun h => hvu h.symm)]
      omega
    · rw [if_neg hv]
      omega

lemma foldl_update_ledger (gs : List (Nat × List QueueElem)) (db : Db) (u : Nat)
    (hu : db.userExists u = true) :
    ((gs.foldl (fun db2 ur => update_database_usage ur.1 ur.2 db2) db).ledger u).getD 0 =
      (db.ledger u).getD 0 + groupCount u gs := by
  induction gs generalizing db with
  | nil => simp [groupCount]
  | cons g rest ih =>
      rw [List.foldl_cons]
      have hu2 : (update_database_usage g.1 g.2 db).userExists u = true := by
        rw [update_userExists]
        exact hu
      rw [ih _ hu2, update_ledger_val g.1 g.2 db u hu]
      unfold groupCount
      simp only [List.map_cons, List.sum_cons]
      omega

lemma countUser2xx_cons_record (u v : Nat) (sc : Option Int)
    (l : List QueueElem) :
    countUser2xx u (QueueElem.record (some v) sc :: l) =
      countUser2xx u l +
        (if v = u then (if statusOk (QueueElem.record (some v) sc) then 1 else 0)
         else 0) := by
  unfold countUser2xx
  rw [List.filter_cons]
  by_cases hv : v = u <;>
    cases hst : statusOk (QueueElem.record (some v) sc) <;>
    simp [hv, hst]

lemma groupByUser_ok (l : List QueueElem) (acc : List (Nat × List QueueElem))
    (hwf : ∀ e ∈ l, isWellFormedEvent e = true) :
    ∃ gs, groupByUser l acc = Except.ok gs ∧
      ∀ u, groupCount u gs = groupCount u acc + countUser2xx u l := by
  induction l generalizing acc with
  | nil => exact ⟨acc, rfl, fun u => by simp [countUser2xx]⟩
  | cons e rest ih =>
      cases e with
      | malformed =>
          obtain ⟨gs, hgs, hcount⟩ :=
            ih acc (fun e2 he2 => hwf e2 (List.mem_cons_of_mem _ he2))
          refine ⟨gs, hgs, fun u => ?_⟩
          rw [hcount u]
          unfold countUser2xx
          rw [List.filter_cons]
          simp [statusOk]
      | record uid sc =>
          cases uid with
          | none =>
              exact absurd (hwf _ (List.mem_cons_self _ _))
                (by simp [isWellFormedEvent])
          | some v =>
              obtain ⟨gs, hgs, hcount⟩ :=
                ih (addToGroup acc v (QueueElem.record (some v) sc))
                  (fun e2 he2 => hwf e2 (List.mem_cons_of_mem _ he2))
              refine ⟨gs, hgs, fun u => ?_⟩
              rw [hcount u, addToGroup_count, countUser2xx_cons_record]
              omega

lemma countUser2xx_reverse (u : Nat) (l : List QueueElem) :
    countUser2xx u l.reverse = countUser2xx u l := by
  unfold countUser2xx
  induction l with
  | nil => rfl
  | cons e rest ih =>
      rw [List.reverse_cons, List.filter_append, List.length_append, ih,
        List.filter_cons]
      cases hpe : (match e with
        | QueueElem.record (some v) _ => decide (v = u)
        | _ => false) && statusOk e <;>
        simp [List.filter_cons, hpe]

/-- Claim C7: on a queue of well-formed events the reconciler drains the
whole bucket, completes without raising, and increments each existing user's
current-period ledger count by exactly that user's number of events with a
2xx status code. -/
theorem claim7_reconciler_counts_2xx (queue : List QueueElem) (db : Db) (u : Nat)
    (hwf : ∀ e ∈ queue, isWellFormedEvent e = true)
    (hu : db.userExists u = true) :
    (persist_usage_data queue db).map (fun db2 => (db2.ledger u).getD 0) =
      Except.ok ((db.ledger u).getD 0 + countUser2xx u queue) := by
  unfold persist_usage_data
  dsimp only
  by_cases hq : queue.reverse.isEmpty
  · have hnil : queue = [] := by
      have := List.isEmpty_iff.mp hq
      simpa using congrArg List.reverse this
    subst hnil
    simp [countUser2xx, Except.map]
  · rw [if_neg (by simpa using hq)]
    have hwfr : ∀ e ∈ queue.reverse, isWellFormedEvent e = true := fun e he =>
      hwf e (List.mem_reverse.mp he)
    obtain ⟨gs, hgs, hcount⟩ := groupByUser_ok queue.reverse [] hwfr
    rw [hgs]
    dsimp only [Except.map]
    rw [foldl_update_ledger gs db u hu, hcount u, countUser2xx_reverse]
    norm_num [groupCount]

/-- Instance of C7: the spec's scenario — one user's hour bucket holding two
status-200 events and one status-500 event increments that user's ledger by
exactly 2. -/
theorem claim7_reconciler_counts_2xx_witness :
    ((∀ e ∈ [QueueElem.record (some 1) (some 200),
              QueueElem.record (some 1) (some 200),
              QueueElem.record (some 1) (some 500)],
        isWellFormedEvent e = true) ∧
     (Db.mk (fun u => u == 1) (fun _ => none)).userExists 1 = true) ∧
    (persist_usage_data
        [QueueElem.record (some 1) (some 200),
         QueueElem.record (some 1) (some 200),
         QueueElem.record (some 1) (some 500)]
        (Db.mk (fun u => u == 1) (fun _ => none))).map
      (fun db2 => (db2.ledger 1).getD 0) =
      Except.ok
        (((Db.mk (fun u => u == 1) (fun _ => none)).ledger 1).getD 0 +
          countUser2xx 1
            [QueueElem.record (some 1) (some 200),
             QueueElem.record (some 1) (some 200),
             QueueElem.record (some 1) (some 500)]) :=
  ⟨⟨by decide, by decide⟩,
   claim7_reconciler_counts_2xx
     [QueueElem.record (some 1) (some 200),
      QueueElem.record (some 1) (some 200),
      QueueElem.record (some 1) (some 500)]
     (Db.mk (fun u => u == 1) (fun _ => none)) 1 (by decide) (by decide)⟩

/-- Claim C9 is wrong about the code for one class of malformed data: an
element whose JSON fails to parse is indeed skipped (first conjunct), but an
element that parses to a record with no `user_id` field — for example the
document `\x7b\x7d` — raises an uncaught KeyError at
`request_data["user_id"]` (only `json.JSONDecodeError` is caught), aborting
the whole reconciler run (second conjunct), while the claim says every
malformed element is dropped and the run completes. -/
theorem claim9_missing_user_id_crashes :
    persist_usage_data [QueueElem.malformed]
      (Db.mk (fun u => u == 1) (fun _ => none)) =
      Except.ok (Db.mk (fun u => u == 1) (fun _ => none)) ∧
    persist_usage_data [QueueElem.record none (some 200)]
      (Db.mk (fun u => u == 1) (fun _ => none)) = Except.error () := by
  exact ⟨rfl, rfl⟩

end SocialAI
